import Mathlib

set_option maxHeartbeats 1000000
set_option maxRecDepth 20000

/-!
Shallow embedding of the Emergency Blood Matching System (src/App.py).

Conventions used throughout:
* Sites (`Loc`) are the keys of the `LOCATIONS` graph, encoded as natural
  numbers: 0 = "Hospital A", 1 = "Hospital B", 2 = "Hospital C",
  3 = "Hospital D".  Any other number is a site unknown to the graph
  (Python: a string that is not a key of `LOCATIONS`).  The numeric order
  0 < 1 < 2 < 3 agrees with Python's string order on the four names, which
  is what `heapq` uses to break ties inside Dijkstra's priority queue.
* Python's `float('inf')` sentinel for distances is `none : Option Nat`;
  a finite distance `d` is `some d`.
* A donor's `last_donation_date` string is embedded as the result of
  parsing it: `some t` when `datetime.strptime(s, '%Y-%m-%d')` succeeds
  and the date denotes day `t` (days since an arbitrary fixed epoch), and
  `none` when the field is missing or the string is unparsable (the
  `except (ValueError, KeyError)` branch of `is_donor_eligible`).
  "now" is likewise a day number, and `(today - last).days >= 90`
  becomes `t + 90 ≤ now`.
* Python `heapq` push/pop on a list of tuples with pairwise-distinct keys
  is embedded as: the heap's contents are a `List`, push appends, and pop
  removes the leftmost minimal element under the tuple order
  (`popMinBy`).  This is exactly the observable contract of a binary
  min-heap; key ties between distinct payloads never arise in the program
  (sequence numbers are unique, and equal Dijkstra pq entries carry equal
  distances, which is all that is read from them).
-/

namespace BloodMatch

/-- Sites are graph keys encoded as numbers (see the header comment). -/
abbrev Loc := Nat

abbrev Graph := List (Loc × List (Loc × Nat))

/-- `LOCATIONS` from App.py:30-35; weights in km, self-weight 0. -/
def LOCATIONS : Graph :=
  [ (0, [(1, 15), (2, 25), (3, 35), (0, 0)])
  , (1, [(0, 15), (2, 8), (3, 10), (1, 0)])
  , (2, [(0, 25), (1, 8), (3, 30), (2, 0)])
  , (3, [(0, 35), (1, 10), (2, 30), (3, 0)]) ]

/-- The known-site set: the keys of `LOCATIONS`. -/
def knownSites : List Loc := LOCATIONS.map (fun p => p.1)

/-- `BLOOD_COMPATIBILITY` from App.py:18-27 (patient type ↦ acceptable
donor types, in source order). -/
def BLOOD_COMPATIBILITY : List (String × List String) :=
  [ ("O-", ["O-"])
  , ("O+", ["O-", "O+"])
  , ("A-", ["O-", "A-"])
  , ("A+", ["O-", "O+", "A-", "A+"])
  , ("B-", ["O-", "B-"])
  , ("B+", ["O-", "O+", "B-", "B+"])
  , ("AB-", ["O-", "A-", "B-", "AB-"])
  , ("AB+", ["O-", "O+", "A-", "A+", "B-", "B+", "AB-", "AB+"]) ]

/-- Dictionary lookup `BLOOD_COMPATIBILITY[bg]` (as `Option`). -/
def compatLookup (bg : String) : Option (List String) :=
  (BLOOD_COMPATIBILITY.find? (fun p => p.1 == bg)).map (fun p => p.2)

/-- Value of a hex digit, as used by `urllib.parse.unquote`. -/
def hexVal (c : Char) : Option Nat :=
  if '0' ≤ c ∧ c ≤ '9' then some (c.toNat - 48)
  else if 'A' ≤ c ∧ c ≤ 'F' then some (c.toNat - 55)
  else if 'a' ≤ c ∧ c ≤ 'f' then some (c.toNat - 87)
  else none

/-- Single-pass percent-decoding (`urllib.parse.unquote`), restricted to
single-byte escapes: a '%' followed by two hex digits decodes to that
character, any other '%' is kept literally. -/
def unquoteChars : List Char → List Char
  | [] => []
  | [c] => [c]
  | [c, d] => [c, d]
  | c :: d :: e :: rest =>
    if c = '%' then
      match hexVal d, hexVal e with
      | some a, some b => Char.ofNat (16 * a + b) :: unquoteChars rest
      | _, _ => c :: unquoteChars (d :: e :: rest)
    else c :: unquoteChars (d :: e :: rest)

/-- `normalize_blood_group` from App.py:39-43: unquote, strip, upper,
remove spaces. -/
def normalize_blood_group (s : String) : String :=
  let cs := unquoteChars s.data
  let stripped := ((cs.dropWhile Char.isWhitespace).reverse.dropWhile Char.isWhitespace).reverse
  String.mk ((stripped.map Char.toUpper).filter (fun c => c ≠ ' '))

/-- Donor record (App.py:190-197).  `id` stands for the uuid string. -/
structure Donor where
  id : Nat
  name : String
  blood_group : String
  location : Loc
  last_donation_date : Option Nat
  total_donations : Nat
deriving DecidableEq

/-- `is_donor_eligible` from App.py:45-53: at least 90 days since the
last donation; `false` (fail closed) when the date is missing or
unparsable. -/
def is_donor_eligible (now : Nat) (d : Donor) : Bool :=
  match d.last_donation_date with
  | none => false
  | some t => decide (t + 90 ≤ now)

/-- Leftmost minimal element of a list under a boolean "less or equal";
the abstract behaviour of `heapq.heappop` on a heap holding these
elements (given `le` total). -/
def popMinBy {α : Type} (le : α → α → Bool) : List α → Option (α × List α)
  | [] => none
  | x :: xs =>
    match popMinBy le xs with
    | none => some (x, [])
    | some (m, r) => if le x m then some (x, xs) else some (m, x :: r)

/-- Tuple order on Dijkstra's priority-queue entries `(dist, loc)`
(Python compares the tuples lexicographically). -/
def pqLe (a b : Nat × Loc) : Bool :=
  decide (a.1 < b.1) || (a.1 == b.1 && decide (a.2 ≤ b.2))

/-- `distances[x]` lookup (the tentative-distance dict). -/
def lookupD (dist : List (Loc × Option Nat)) (x : Loc) : Option Nat :=
  match dist.find? (fun p => p.1 == x) with
  | some p => p.2
  | none => none

/-- `distances[x] = v` update. -/
def setD (dist : List (Loc × Option Nat)) (x : Loc) (v : Nat) : List (Loc × Option Nat) :=
  dist.map (fun p => if p.1 == x then (p.1, some v) else p)

/-- `new_dist < distances[neighbor]` where the right side may be inf. -/
def ltInf (nd : Nat) (o : Option Nat) : Bool :=
  match o with
  | none => true
  | some m => decide (nd < m)

/-- `LOCATIONS.get(current_loc, {})`. -/
def nbrsOf (g : Graph) (u : Loc) : List (Loc × Nat) :=
  match g.find? (fun p => p.1 == u) with
  | some p => p.2
  | none => []

/-- The neighbour-relaxation loop body of App.py:76-80. -/
def relaxFold (dist : List (Loc × Option Nat)) (pq : List (Nat × Loc)) (d : Nat)
    (nbrs : List (Loc × Nat)) : List (Loc × Option Nat) × List (Nat × Loc) :=
  nbrs.foldl
    (fun ac vw =>
      let nd := d + vw.2
      if ltInf nd (lookupD ac.1 vw.1) then (setD ac.1 vw.1 nd, ac.2 ++ [(nd, vw.1)])
      else ac)
    (dist, pq)

/-- The `while pq:` loop of App.py:66-80, with explicit fuel.  Each
iteration pops one pq entry and at most `|edges|` entries are ever
pushed after the initial one, so `graphFuel` fuel is never exhausted;
on exhaustion (and on an empty pq) the loop postlude
`distances.get(to_location, inf)` is returned. -/
def dijkstraLoop (g : Graph) (toL : Loc) :
    Nat → List (Loc × Option Nat) → List (Nat × Loc) → List Loc → Option Nat
  | 0, dist, _, _ => lookupD dist toL
  | n + 1, dist, pq, vis =>
    match popMinBy pqLe pq with
    | none => lookupD dist toL
    | some (du, pq') =>
      if du.2 ∈ vis then dijkstraLoop g toL n dist pq' vis
      else if du.2 == toL then some du.1
      else
        let dp := relaxFold dist pq' du.1 (nbrsOf g du.2)
        dijkstraLoop g toL n dp.1 dp.2 (du.2 :: vis)

/-- Fuel that strictly dominates the number of loop iterations. -/
def graphFuel (g : Graph) : Nat :=
  g.foldl (fun a p => a + p.2.length) 0 + g.length + 1

/-- `calculate_distance` from App.py:55-82, generalized over the graph
(the source reads the module-level `LOCATIONS`; `calculate_distance`
below instantiates it there). -/
def calculate_distanceG (g : Graph) (fromL toL : Loc) : Option Nat :=
  if (g.find? (fun p => p.1 == fromL)).isNone || (g.find? (fun p => p.1 == toL)).isNone then
    none
  else
    dijkstraLoop g toL (graphFuel g)
      (g.map (fun p => (p.1, if p.1 == fromL then some 0 else (none : Option Nat))))
      [(0, fromL)] []

/-- `calculate_distance` on the deployed `LOCATIONS` graph. -/
def calculate_distance (fromL toL : Loc) : Option Nat :=
  calculate_distanceG LOCATIONS fromL toL

/-- `donors_by_blood_group`: a `defaultdict(list)` keyed by blood type. -/
abbrev Registry := List (String × List Donor)

/-- `donors_by_blood_group.get(bt, [])` (association-list key lookup,
empty when the key is absent). -/
def getBG : Registry → String → List Donor
  | [], _ => []
  | p :: r, bg => if p.1 == bg then p.2 else getBG r bg

/-- `donors_by_blood_group[bg].append(d)` (a `defaultdict` creates the
bucket on first use). -/
def appendBG (r : Registry) (bg : String) (d : Donor) : Registry :=
  if (r.find? (fun p => p.1 == bg)).isSome then
    r.map (fun p => if p.1 == bg then (p.1, p.2 ++ [d]) else p)
  else
    r ++ [(bg, [d])]

/-- Registry well-formedness: each bucket holds donors of its own blood
type.  Every registry the program builds satisfies this, because
`add_donor` stores each donor under its (normalized) own type. -/
def WFRegistry (r : Registry) : Prop :=
  ∀ p ∈ r, ∀ d ∈ p.2, d.blood_group = p.1

/-- The `all_compatible_donors` accumulation loop of App.py:95-97. -/
def compatibleDonorsOf (r : Registry) (types : List String) : List Donor :=
  types.foldl (fun a t => a ++ getBG r t) []

/-- Strict order on optional distances with `none` as infinity
(`distance < min_distance` in App.py:109). -/
def optLtO : Option Nat → Option Nat → Bool
  | some a, some b => decide (a < b)
  | some _, none => true
  | none, _ => false

/-- One iteration of the best-donor selection loop (App.py:106-111);
the accumulator is `(best_donor, min_distance)`. -/
def selStep (now : Nat) (ploc : Loc) (acc : Option Donor × Option Nat) (d : Donor) :
    Option Donor × Option Nat :=
  if is_donor_eligible now d then
    let dist := calculate_distance ploc d.location
    if optLtO dist acc.2 then (some d, dist) else acc
  else acc

/-- Result of `find_nearest_donor` (App.py:84-116): the `(donor,
distance, error)` triple collapsed into one sum.  The error payloads
keep what the Python message interpolates (the compatible-type list,
resp. the compatible-donor count). -/
inductive FindResult where
  | found (d : Donor) (dist : Option Nat)
  | invalidBloodGroup
  | noCompatibleDonors (types : List String)
  | noneEligible (count : Nat)
deriving DecidableEq

/-- `find_nearest_donor` from App.py:84-116. -/
def find_nearest_donor (now : Nat) (r : Registry) (pbg : String) (ploc : Loc) : FindResult :=
  let bg := normalize_blood_group pbg
  match compatLookup bg with
  | none => .invalidBloodGroup
  | some types =>
    let all := compatibleDonorsOf r types
    if all.isEmpty then .noCompatibleDonors types
    else
      match all.foldl (selStep now ploc) (none, none) with
      | (some d, dist) => .found d dist
      | (none, _) => .noneEligible all.length

/-- An entry of `emergency_requests`: the heap tuple
`(urgency, counter, request_data)` with the fields of `request_data`
(App.py:288-297) inlined.  `rid` stands for the uuid, `tstamp` for the
submission timestamp. -/
structure ETicket where
  urgency : Int
  seq : Nat
  rid : Nat
  patient_bg : String
  patient_loc : Loc
  tstamp : Nat
deriving DecidableEq

/-- The heap-tuple order on tickets: urgency first, then the counter.
Python never compares the third component because counters are unique. -/
def ticketLe (a b : ETicket) : Bool :=
  decide (a.urgency < b.urgency) || (a.urgency == b.urgency && decide (a.seq ≤ b.seq))

/-- An entry of `matching_history` (App.py:253-262 and 341-351).
`urgency` is `none` for a Normal match (the key is absent there). -/
structure MatchRecord where
  tstamp : Nat
  kind : String
  urgency : Option Int
  patient_blood : String
  patient_location : Loc
  donor_name : String
  donor_blood : String
  donor_location : Loc
  distance_km : Option Nat
deriving DecidableEq

/-- The module-level mutable state of App.py:12-15. -/
structure SysState where
  registry : Registry
  emergency_requests : List ETicket
  emergency_counter : Nat
  matching_history : List MatchRecord
deriving DecidableEq

/-- The two donor mutations of App.py:249-250 (and 337-338). -/
def markDonated (now : Nat) (d : Donor) : Donor :=
  { d with last_donation_date := some now, total_donations := d.total_donations + 1 }

/-- Replace the first occurrence of `d` in a bucket by its marked
version: the in-place mutation of the matched donor object, seen
through the bucket that aliases it. -/
def updateFirst (l : List Donor) (d : Donor) (now : Nat) : List Donor :=
  match l with
  | [] => []
  | x :: xs => if x = d then markDonated now d :: xs else x :: updateFirst xs d now

/-- The registry after the matched donor's in-place mutation.  The
matched donor lives in the bucket of its own blood type (every registry
the program builds is `WFRegistry`). -/
def markInRegistry (r : Registry) (d : Donor) (now : Nat) : Registry :=
  r.map (fun p => if p.1 == d.blood_group then (p.1, updateFirst p.2 d now) else p)

/-- Outcome of the `/api/match` handler. -/
inductive MatchOutcome where
  | matched (d : Donor) (dist : Option Nat)
  | failed (e : FindResult)
deriving DecidableEq

/-- `match_donor` from App.py:234-269 (the engine part: the
`find_nearest_donor` call, the donor mutation and the history append;
wire parsing aside). -/
def match_donor (now : Nat) (bg : String) (loc : Loc) (st : SysState) :
    MatchOutcome × SysState :=
  match find_nearest_donor now st.registry bg loc with
  | .found d dist =>
    (.matched (markDonated now d) dist,
     { st with
       registry := markInRegistry st.registry d now,
       matching_history := st.matching_history ++
         [{ tstamp := now, kind := "Normal", urgency := none,
            patient_blood := normalize_blood_group bg, patient_location := loc,
            donor_name := d.name, donor_blood := d.blood_group,
            donor_location := d.location, distance_km := dist }] })
  | e => (.failed e, st)

/-- The JSON value found under `urgency_level`, as far as the handler
inspects it: absent (so `data.get('urgency_level', 1)` yields 1), an
integer (Python bools are `isinstance(_, int)` and equal 0/1, so they
fall in this bucket), or any non-integer value. -/
inductive UrgField where
  | absent
  | jint (n : Int)
  | nonInt
deriving DecidableEq

/-- Outcome of the `/api/emergency` handler. -/
inductive EmResult where
  | added (rid : Nat) (urgency : Int) (position : Nat)
  | missingPatient
  | invalidUrgency
deriving DecidableEq

/-- `emergency_request` from App.py:271-307.  `pbg`/`ploc` are the
patient payload fields (`none` models a missing or falsy field; a
present-but-empty blood group string is also falsy in Python, hence the
`isEmpty` test). -/
def emergency_request (st : SysState) (urg : UrgField) (pbg : Option String)
    (ploc : Option Loc) (rid tstamp : Nat) : EmResult × SysState :=
  match pbg, ploc with
  | some bgs, some l =>
    if bgs.isEmpty then (.missingPatient, st)
    else
      match urg with
      | .nonInt => (.invalidUrgency, st)
      | .jint n =>
        if n < 1 ∨ 5 < n then (.invalidUrgency, st)
        else
          let t : ETicket :=
            { urgency := n, seq := st.emergency_counter + 1, rid := rid,
              patient_bg := bgs, patient_loc := l, tstamp := tstamp }
          (.added rid n (st.emergency_requests.length + 1),
           { st with
             emergency_counter := st.emergency_counter + 1,
             emergency_requests := st.emergency_requests ++ [t] })
      | .absent =>
        let t : ETicket :=
          { urgency := 1, seq := st.emergency_counter + 1, rid := rid,
            patient_bg := bgs, patient_loc := l, tstamp := tstamp }
        (.added rid 1 (st.emergency_requests.length + 1),
         { st with
           emergency_counter := st.emergency_counter + 1,
           emergency_requests := st.emergency_requests ++ [t] })
  | _, _ => (.missingPatient, st)

/-- Outcome of the `/api/emergency/process` handler. -/
inductive PNResult where
  | queueEmpty
  | noMatch (t : ETicket) (e : FindResult)
  | matched (t : ETicket) (d : Donor) (dist : Option Nat)
deriving DecidableEq

/-- `process_next_emergency` from App.py:309-365: pop the minimal heap
entry; on a failed match the ticket stays consumed and the failure is
returned with it; on success the donor mutation and the history append
happen as in the normal match. -/
def process_next_emergency (now : Nat) (st : SysState) : PNResult × SysState :=
  match popMinBy ticketLe st.emergency_requests with
  | none => (.queueEmpty, st)
  | some (t, rest) =>
    match find_nearest_donor now st.registry t.patient_bg t.patient_loc with
    | .found d dist =>
      (.matched t (markDonated now d) dist,
       { st with
         emergency_requests := rest,
         registry := markInRegistry st.registry d now,
         matching_history := st.matching_history ++
           [{ tstamp := now, kind := "Emergency", urgency := some t.urgency,
              patient_blood := t.patient_bg, patient_location := t.patient_loc,
              donor_name := d.name, donor_blood := d.blood_group,
              donor_location := d.location, distance_km := dist }] })
    | e => (.noMatch t e, { st with emergency_requests := rest })

/-- Outcome of the `/api/donors` POST handler. -/
inductive AddResult where
  | added (d : Donor)
  | invalidBloodGroup
  | invalidLocation
deriving DecidableEq

/-- `add_donor` from App.py:168-207 (field-presence boilerplate aside:
all four required fields are given; the date field is given as its
parse, which the handler never inspects). -/
def add_donor (r : Registry) (id : Nat) (name : String) (bgRaw : String) (loc : Loc)
    (ldd : Option Nat) : AddResult × Registry :=
  let bg := normalize_blood_group bgRaw
  if (compatLookup bg).isNone then (.invalidBloodGroup, r)
  else if (LOCATIONS.find? (fun p => p.1 == loc)).isNone then (.invalidLocation, r)
  else
    let d : Donor :=
      { id := id, name := name, blood_group := bg, location := loc,
        last_donation_date := ldd, total_donations := 0 }
    (.added d, appendBG r bg d)

/-- `get_stats` from App.py:394-407: per canonical blood type, the
`(total, eligible, not_eligible)` triple. -/
def get_stats (now : Nat) (r : Registry) : List (String × (Nat × Nat × Nat)) :=
  BLOOD_COMPATIBILITY.map (fun p =>
    let ds := getBG r p.1
    let e := (ds.filter (is_donor_eligible now)).length
    (p.1, (ds.length, e, ds.length - e)))

/-- Stats row for one blood type. -/
def statsFor (now : Nat) (r : Registry) (bg : String) : Option (Nat × Nat × Nat) :=
  ((get_stats now r).find? (fun p => p.1 == bg)).map (fun p => p.2)

/-- Repeatedly pop the minimum, with fuel. -/
def drainFuel {α : Type} (le : α → α → Bool) : Nat → List α → List α
  | 0, _ => []
  | n + 1, l =>
    match popMinBy le l with
    | none => []
    | some (m, r) => m :: drainFuel le n r

/-- The full dequeue order of a queue: the sequence of elements that
successive pops return. -/
def drainBy {α : Type} (le : α → α → Bool) (l : List α) : List α :=
  drainFuel le l.length l

/-- `isFound` discriminates the success constructor of `FindResult`. -/
def isFound : FindResult → Bool
  | .found _ _ => true
  | _ => false

/-! ### Helper lemmas: the optional-distance order -/

theorem optLtO_trans {a b c : Option Nat} (h1 : optLtO a b = true)
    (h2 : optLtO b c = true) : optLtO a c = true := by
  cases a <;> cases b <;> cases c <;> simp [optLtO] at * <;> omega

theorem optLtO_trans_notLt {a b c : Option Nat} (h1 : optLtO a b = true)
    (h2 : optLtO c b = false) : optLtO a c = true := by
  cases a <;> cases b <;> cases c <;> simp [optLtO] at * <;> omega

theorem optLtO_none_right {a : Option Nat} (h : optLtO a none = true) :
    ∃ n, a = some n := by
  cases a with
  | none => simp [optLtO] at h
  | some n => exact ⟨n, rfl⟩

/-! ### Helper lemmas: pop-min and the dequeue order -/

theorem popMinBy_eq_none {α : Type} (le : α → α → Bool) (l : List α) :
    popMinBy le l = none ↔ l = [] := by
  cases l with
  | nil => simp [popMinBy]
  | cons x xs =>
    simp only [popMinBy]
    cases h : popMinBy le xs with
    | none => simp
    | some mr => by_cases hle : le x mr.1 <;> simp [hle]

theorem popMinBy_perm {α : Type} (le : α → α → Bool) :
    ∀ (l : List α) (m : α) (r : List α), popMinBy le l = some (m, r) →
      l.Perm (m :: r) := by
  intro l
  induction l with
  | nil => intro m r h; simp [popMinBy] at h
  | cons x xs ih =>
    intro m r h
    simp only [popMinBy] at h
    cases hxs : popMinBy le xs with
    | none =>
      rw [hxs] at h
      have hnil : xs = [] := (popMinBy_eq_none le xs).mp hxs
      simp at h
      obtain ⟨h1, h2⟩ := h
      subst h1; subst h2; subst hnil
      exact List.Perm.refl _
    | some mr =>
      obtain ⟨m', r'⟩ := mr
      rw [hxs] at h
      by_cases hle : le x m'
      · simp [hle] at h
        obtain ⟨h1, h2⟩ := h
        subst h1; subst h2
        exact List.Perm.refl _
      · simp [hle] at h
        obtain ⟨rfl, rfl⟩ := h
        have hp : xs.Perm (m' :: r') := ih m' r' hxs
        exact (hp.cons x).trans (List.Perm.swap m' x r')

theorem popMinBy_mem {α : Type} (le : α → α → Bool) (l : List α) (m : α) (r : List α)
    (h : popMinBy le l = some (m, r)) : m ∈ l :=
  (popMinBy_perm le l m r h).symm.subset (List.mem_cons_self m r)

theorem popMinBy_min {α : Type} (le : α → α → Bool)
    (htot : ∀ a b, le a b = true ∨ le b a = true)
    (htrans : ∀ a b c, le a b = true → le b c = true → le a c = true) :
    ∀ (l : List α) (m : α) (r : List α), popMinBy le l = some (m, r) →
      ∀ x ∈ l, le m x = true := by
  intro l
  induction l with
  | nil => intro m r h; simp [popMinBy] at h
  | cons y ys ih =>
    intro m r h x hx
    simp only [popMinBy] at h
    cases hys : popMinBy le ys with
    | none =>
      rw [hys] at h
      have hnil : ys = [] := (popMinBy_eq_none le ys).mp hys
      simp at h
      obtain ⟨rfl, rfl⟩ := h
      subst hnil
      rcases List.mem_singleton.mp hx with rfl
      rcases htot x x with ht | ht
      · exact ht
      · exact ht
    | some mr =>
      obtain ⟨m', r'⟩ := mr
      rw [hys] at h
      by_cases hle : le y m'
      · simp [hle] at h
        obtain ⟨rfl, rfl⟩ := h
        rcases List.mem_cons.mp hx with rfl | hxs
        · rcases htot x x with ht | ht
          · exact ht
          · exact ht
        · exact htrans _ _ _ hle (ih m' r' hys x hxs)
      · simp [hle] at h
        obtain ⟨rfl, hr⟩ := h
        rcases List.mem_cons.mp hx with rfl | hxs
        · rcases htot x m' with ht | ht
          · exact absurd ht hle
          · exact ht
        · exact ih m' r' hys x hxs

theorem drainFuel_subset {α : Type} (le : α → α → Bool) :
    ∀ (n : Nat) (l : List α) (b : α), b ∈ drainFuel le n l → b ∈ l := by
  intro n
  induction n with
  | zero => intro l b h; simp [drainFuel] at h
  | succ k ih =>
    intro l b h
    simp only [drainFuel] at h
    cases hl : popMinBy le l with
    | none => rw [hl] at h; simp at h
    | some mr =>
      obtain ⟨m, r⟩ := mr
      rw [hl] at h
      rcases List.mem_cons.mp h with rfl | hr
      · exact popMinBy_mem le l b r hl
      · exact (popMinBy_perm le l m r hl).symm.subset (List.mem_cons_of_mem m (ih r b hr))

theorem drainFuel_perm {α : Type} (le : α → α → Bool) :
    ∀ (n : Nat) (l : List α), l.length ≤ n → (drainFuel le n l).Perm l := by
  intro n
  induction n with
  | zero =>
    intro l hlen
    have : l = [] := List.length_eq_zero.mp (Nat.le_zero.mp hlen)
    subst this
    simp [drainFuel]
  | succ k ih =>
    intro l hlen
    simp only [drainFuel]
    cases hl : popMinBy le l with
    | none =>
      have : l = [] := (popMinBy_eq_none le l).mp hl
      subst this
      simp
    | some mr =>
      obtain ⟨m, r⟩ := mr
      have hp : l.Perm (m :: r) := popMinBy_perm le l m r hl
      have hlr : r.length ≤ k := by
        have := hp.length_eq
        simp at this
        omega
      show (m :: drainFuel le k r).Perm l
      exact ((ih r hlr).cons m).trans hp.symm

theorem drainFuel_sorted {α : Type} (le : α → α → Bool)
    (htot : ∀ a b, le a b = true ∨ le b a = true)
    (htrans : ∀ a b c, le a b = true → le b c = true → le a c = true) :
    ∀ (n : Nat) (l : List α), (drainFuel le n l).Pairwise (fun a b => le a b = true) := by
  intro n
  induction n with
  | zero => intro l; simp [drainFuel]
  | succ k ih =>
    intro l
    simp only [drainFuel]
    cases hl : popMinBy le l with
    | none => simp
    | some mr =>
      obtain ⟨m, r⟩ := mr
      refine List.Pairwise.cons ?_ (ih r)
      intro b hb
      have hbr : b ∈ r := drainFuel_subset le k r b hb
      have hbl : b ∈ l := (popMinBy_perm le l m r hl).symm.subset (List.mem_cons_of_mem m hbr)
      exact popMinBy_min le htot htrans l m r hl b hbl

theorem drainBy_perm {α : Type} (le : α → α → Bool) (l : List α) :
    (drainBy le l).Perm l :=
  drainFuel_perm le l.length l (Nat.le_refl _)

theorem drainBy_sorted {α : Type} (le : α → α → Bool)
    (htot : ∀ a b, le a b = true ∨ le b a = true)
    (htrans : ∀ a b c, le a b = true → le b c = true → le a c = true)
    (l : List α) : (drainBy le l).Pairwise (fun a b => le a b = true) :=
  drainFuel_sorted le htot htrans l.length l

theorem optLtO_irrefl (a : Option Nat) : optLtO a a = false := by
  cases a <;> simp [optLtO]

theorem optLtO_asymm {a b : Option Nat} (h : optLtO a b = true) : optLtO b a = false := by
  cases a <;> cases b <;> simp [optLtO] at * <;> omega

theorem optLtO_lt_of_le_of_lt {a b c : Option Nat} (h1 : optLtO b a = false)
    (h2 : optLtO b c = true) : optLtO a c = true := by
  cases a <;> cases b <;> cases c <;> simp [optLtO] at * <;> omega

theorem optLtO_false_trans {a b c : Option Nat} (h1 : optLtO a b = false)
    (h2 : optLtO b c = false) : optLtO a c = false := by
  cases a <;> cases b <;> cases c <;> simp [optLtO] at * <;> omega

/-! ### Helper lemmas: the best-donor selection fold (App.py:106-111) -/

theorem selStep_eq_or (now : Nat) (ploc : Loc) (acc : Option Donor × Option Nat) (d : Donor) :
    selStep now ploc acc d = acc ∨
      (is_donor_eligible now d = true ∧
        optLtO (calculate_distance ploc d.location) acc.2 = true ∧
        selStep now ploc acc d = (some d, calculate_distance ploc d.location)) := by
  by_cases he : is_donor_eligible now d
  · by_cases hlt : optLtO (calculate_distance ploc d.location) acc.2
    · exact Or.inr ⟨he, hlt, by simp [selStep, he, hlt]⟩
    · exact Or.inl (by simp [selStep, he, hlt])
  · exact Or.inl (by simp [selStep, he])

theorem sel_foldl_found (now : Nat) (ploc : Loc) :
    ∀ (l : List Donor) (acc : Option Donor × Option Nat) (d : Donor) (o : Option Nat),
      l.foldl (selStep now ploc) acc = (some d, o) →
      acc = (some d, o) ∨
        (d ∈ l ∧ is_donor_eligible now d = true ∧ o = calculate_distance ploc d.location) := by
  intro l
  induction l with
  | nil =>
    intro acc d o h
    simp at h
    exact Or.inl h
  | cons x xs ih =>
    intro acc d o h
    rw [List.foldl_cons] at h
    rcases ih (selStep now ploc acc x) d o h with hacc | ⟨hm, he, ho⟩
    · rcases selStep_eq_or now ploc acc x with hs | ⟨hex, _, hs⟩
      · exact Or.inl (hs ▸ hacc)
      · rw [hs] at hacc
        have hd : x = d := by
          have := congrArg Prod.fst hacc
          simpa using this
        have ho : o = calculate_distance ploc x.location := by
          have := congrArg Prod.snd hacc
          simpa using this.symm
        subst hd
        exact Or.inr ⟨List.mem_cons_self x xs, hex, ho⟩
    · exact Or.inr ⟨List.mem_cons_of_mem x hm, he, ho⟩

theorem sel_foldl_mono (now : Nat) (ploc : Loc) :
    ∀ (l : List Donor) (acc : Option Donor × Option Nat),
      optLtO acc.2 (l.foldl (selStep now ploc) acc).2 = false := by
  intro l
  induction l with
  | nil => intro acc; simpa using optLtO_irrefl acc.2
  | cons x xs ih =>
    intro acc
    rw [List.foldl_cons]
    rcases selStep_eq_or now ploc acc x with hs | ⟨_, hlt, hs⟩
    · rw [hs]; exact ih acc
    · rw [hs]
      have hmono := ih (some x, calculate_distance ploc x.location)
      have hlt2 : optLtO (xs.foldl (selStep now ploc) (some x, calculate_distance ploc x.location)).2 acc.2 = true :=
        optLtO_lt_of_le_of_lt hmono hlt
      exact optLtO_asymm hlt2

theorem sel_foldl_min (now : Nat) (ploc : Loc) :
    ∀ (l : List Donor) (acc : Option Donor × Option Nat) (d : Donor) (o : Option Nat),
      l.foldl (selStep now ploc) acc = (some d, o) →
      ∀ e ∈ l, is_donor_eligible now e = true →
        optLtO (calculate_distance ploc e.location) o = false := by
  intro l
  induction l with
  | nil => intro acc d o h e he; simp at he
  | cons x xs ih =>
    intro acc d o h e he hel
    rw [List.foldl_cons] at h
    rcases List.mem_cons.mp he with rfl | hexs
    · by_cases hlt : optLtO (calculate_distance ploc e.location) acc.2 = true
      · have hs2 : selStep now ploc acc e = (some e, calculate_distance ploc e.location) := by
          simp [selStep, hel, hlt]
        rw [hs2] at h
        have hmono := sel_foldl_mono now ploc xs (some e, calculate_distance ploc e.location)
        rw [h] at hmono
        exact hmono
      · have hs2 : selStep now ploc acc e = acc := by
          simp [selStep, hel, hlt]
        rw [hs2] at h
        have hmono := sel_foldl_mono now ploc xs acc
        rw [h] at hmono
        exact optLtO_false_trans (Bool.eq_false_iff.mpr hlt) hmono
    · exact ih (selStep now ploc acc x) d o h e hexs hel

theorem sel_foldl_leftmost (now : Nat) (ploc : Loc) :
    ∀ (l : List Donor) (acc : Option Donor × Option Nat) (d : Donor) (o : Option Nat),
      l.foldl (selStep now ploc) acc = (some d, o) →
      acc = (some d, o) ∨
        ∃ l1 l2, l = l1 ++ d :: l2 ∧ is_donor_eligible now d = true ∧
          o = calculate_distance ploc d.location ∧ optLtO o acc.2 = true ∧
          ∀ e ∈ l1, is_donor_eligible now e = true →
            optLtO o (calculate_distance ploc e.location) = true := by
  intro l
  induction l with
  | nil =>
    intro acc d o h
    simp at h
    exact Or.inl h
  | cons x xs ih =>
    intro acc d o h
    rw [List.foldl_cons] at h
    by_cases hel : is_donor_eligible now x = true
    · by_cases hlt : optLtO (calculate_distance ploc x.location) acc.2 = true
      · have hs : selStep now ploc acc x = (some x, calculate_distance ploc x.location) := by
          simp [selStep, hel, hlt]
        rw [hs] at h
        rcases ih _ d o h with hacc | ⟨l1, l2, hsplit, hed, ho, hoacc, hall⟩
        · have hd : x = d := by
            have := congrArg Prod.fst hacc
            simpa using this
          have ho : o = calculate_distance ploc x.location := by
            have := congrArg Prod.snd hacc
            simpa using this.symm
          subst hd
          exact Or.inr ⟨[], xs, rfl, hel, ho, ho ▸ hlt, by simp⟩
        · refine Or.inr ⟨x :: l1, l2, by rw [hsplit, List.cons_append], hed, ho, ?_, ?_⟩
          · exact optLtO_trans hoacc hlt
          · intro e hemem heel
            rcases List.mem_cons.mp hemem with rfl | hel1
            · exact hoacc
            · exact hall e hel1 heel
      · have hs : selStep now ploc acc x = acc := by
          simp [selStep, hel, hlt]
        rw [hs] at h
        rcases ih _ d o h with hacc | ⟨l1, l2, hsplit, hed, ho, hoacc, hall⟩
        · exact Or.inl hacc
        · refine Or.inr ⟨x :: l1, l2, by rw [hsplit, List.cons_append], hed, ho, hoacc, ?_⟩
          intro e hemem heel
          rcases List.mem_cons.mp hemem with rfl | hel1
          · exact optLtO_trans_notLt hoacc (Bool.eq_false_iff.mpr hlt)
          · exact hall e hel1 heel
    · have hs : selStep now ploc acc x = acc := by
        simp [selStep, hel]
      rw [hs] at h
      rcases ih _ d o h with hacc | ⟨l1, l2, hsplit, hed, ho, hoacc, hall⟩
      · exact Or.inl hacc
      · refine Or.inr ⟨x :: l1, l2, by rw [hsplit, List.cons_append], hed, ho, hoacc, ?_⟩
        intro e hemem heel
        rcases List.mem_cons.mp hemem with rfl | hel1
        · exact absurd heel hel
        · exact hall e hel1 heel

theorem sel_foldl_stay_none (now : Nat) (ploc : Loc) :
    ∀ (l : List Donor), (∀ e ∈ l, calculate_distance ploc e.location = none) →
      l.foldl (selStep now ploc) (none, none) = (none, none) := by
  intro l
  induction l with
  | nil => intro _; simp
  | cons x xs ih =>
    intro hall
    rw [List.foldl_cons]
    have hx : calculate_distance ploc x.location = none := hall x (List.mem_cons_self x xs)
    have hs : selStep now ploc (none, none) x = (none, none) := by
      by_cases hel : is_donor_eligible now x = true
      · simp [selStep, hel, hx, optLtO]
      · simp [selStep, hel]
    rw [hs]
    exact ih (fun e he => hall e (List.mem_cons_of_mem x he))

/-! ### Helper lemmas: graph lookups and unknown sites -/

theorem find?_key_none {β : Type} (l : List (Nat × β)) (a : Nat)
    (ha : a ∉ l.map (fun p => p.1)) : l.find? (fun p => p.1 == a) = none := by
  apply List.find?_eq_none.mpr
  intro x hx
  simp only [beq_eq_false_iff_ne, ne_eq, Bool.not_eq_true]
  intro hxa
  have hx1 : x.1 = a := by simpa using hxa
  exact ha (hx1 ▸ List.mem_map_of_mem (fun p => p.1) hx)

theorem calculate_distanceG_unknown {g : Graph} {a b : Loc}
    (h : a ∉ g.map (fun p => p.1) ∨ b ∉ g.map (fun p => p.1)) :
    calculate_distanceG g a b = none := by
  unfold calculate_distanceG
  rcases h with h | h
  · rw [find?_key_none g a h]
    simp
  · rw [find?_key_none g b h]
    simp

theorem calculate_distance_unknown {a b : Loc} (h : a ∉ knownSites ∨ b ∉ knownSites) :
    calculate_distance a b = none :=
  calculate_distanceG_unknown h

/-! ### Helper lemmas: the registry -/

theorem getBG_blood_group (r : Registry) (bg : String) (d : Donor)
    (hwf : WFRegistry r) (hd : d ∈ getBG r bg) : d.blood_group = bg := by
  induction r with
  | nil => simp [getBG] at hd
  | cons p r' ih =>
    by_cases hp : (p.1 == bg) = true
    · rw [getBG, if_pos hp] at hd
      have hqe : p.1 = bg := by simpa using hp
      exact hqe ▸ hwf p (List.mem_cons_self p r') d hd
    · rw [getBG, if_neg hp] at hd
      exact ih (fun q hq e he => hwf q (List.mem_cons_of_mem p hq) e he) hd

theorem compatibleDonorsOf_append (r : Registry) :
    ∀ (types : List String) (init : List Donor),
      types.foldl (fun a t => a ++ getBG r t) init =
        init ++ types.foldl (fun a t => a ++ getBG r t) [] := by
  intro types
  induction types with
  | nil => intro init; simp
  | cons t ts ih =>
    intro init
    simp only [List.foldl_cons]
    rw [ih (init ++ getBG r t), ih ([] ++ getBG r t)]
    simp

theorem compatibleDonorsOf_cons (r : Registry) (t : String) (ts : List String) :
    compatibleDonorsOf r (t :: ts) = getBG r t ++ compatibleDonorsOf r ts := by
  unfold compatibleDonorsOf
  rw [List.foldl_cons]
  simpa using compatibleDonorsOf_append r ts (getBG r t)

theorem mem_compatibleDonorsOf (r : Registry) (types : List String) (d : Donor) :
    d ∈ compatibleDonorsOf r types ↔ ∃ t ∈ types, d ∈ getBG r t := by
  induction types with
  | nil => simp [compatibleDonorsOf]
  | cons t ts ih =>
    rw [compatibleDonorsOf_cons]
    simp [ih]

/-! ### Helper lemmas: inverting `find_nearest_donor` -/

theorem find_nearest_donor_eq (now : Nat) (r : Registry) (pbg : String) (ploc : Loc) :
    find_nearest_donor now r pbg ploc =
      match compatLookup (normalize_blood_group pbg) with
      | none => .invalidBloodGroup
      | some types =>
        if (compatibleDonorsOf r types).isEmpty then .noCompatibleDonors types
        else
          match (compatibleDonorsOf r types).foldl (selStep now ploc) (none, none) with
          | (some d, dist) => .found d dist
          | (none, _) => .noneEligible (compatibleDonorsOf r types).length := rfl

theorem find_found_inv (now : Nat) (r : Registry) (pbg : String) (ploc : Loc) (d : Donor)
    (o : Option Nat) (h : find_nearest_donor now r pbg ploc = .found d o) :
    ∃ types, compatLookup (normalize_blood_group pbg) = some types ∧
      (compatibleDonorsOf r types).isEmpty = false ∧
      (compatibleDonorsOf r types).foldl (selStep now ploc) (none, none) = (some d, o) := by
  rw [find_nearest_donor_eq] at h
  split at h
  · exact absurd h (by simp)
  · rename_i types hc
    by_cases he : (compatibleDonorsOf r types).isEmpty = true
    · rw [if_pos he] at h
      exact absurd h (by simp)
    · rw [if_neg he] at h
      split at h
      · rename_i d2 dist hf
        simp at h
        obtain ⟨rfl, rfl⟩ := h
        exact ⟨types, hc, Bool.eq_false_iff.mpr he, hf⟩
      · exact absurd h (by simp)

theorem find_unknown_site (now : Nat) (r : Registry) (pbg : String) (ploc : Loc)
    (hp : ploc ∉ knownSites) :
    find_nearest_donor now r pbg ploc =
      match compatLookup (normalize_blood_group pbg) with
      | none => .invalidBloodGroup
      | some types =>
        if (compatibleDonorsOf r types).isEmpty then .noCompatibleDonors types
        else .noneEligible (compatibleDonorsOf r types).length := by
  rw [find_nearest_donor_eq]
  cases hc : compatLookup (normalize_blood_group pbg) with
  | none => rfl
  | some types =>
    by_cases he : (compatibleDonorsOf r types).isEmpty = true
    · simp [he]
    · have hall : ∀ e ∈ compatibleDonorsOf r types, calculate_distance ploc e.location = none :=
        fun e _ => calculate_distance_unknown (Or.inl hp)
      show (if (compatibleDonorsOf r types).isEmpty = true then FindResult.noCompatibleDonors types
          else
            match (compatibleDonorsOf r types).foldl (selStep now ploc) (none, none) with
            | (some d, dist) => FindResult.found d dist
            | (none, _) => FindResult.noneEligible (compatibleDonorsOf r types).length) =
        (if (compatibleDonorsOf r types).isEmpty = true then FindResult.noCompatibleDonors types
          else FindResult.noneEligible (compatibleDonorsOf r types).length)
      rw [if_neg he, if_neg he, sel_foldl_stay_none now ploc _ hall]

/-! ### Helper lemmas: the in-place donor mutation -/

theorem updateFirst_of_mem :
    ∀ (l : List Donor) (d : Donor) (now : Nat), d ∈ l →
      ∃ l1 l2, l = l1 ++ d :: l2 ∧ d ∉ l1 ∧
        updateFirst l d now = l1 ++ markDonated now d :: l2 := by
  intro l
  induction l with
  | nil => intro d now h; simp at h
  | cons x xs ih =>
    intro d now h
    by_cases hx : x = d
    · subst hx
      exact ⟨[], xs, rfl, by simp, by simp [updateFirst]⟩
    · rcases List.mem_cons.mp h with rfl | hxs
      · exact absurd rfl hx
      · rcases ih d now hxs with ⟨l1, l2, hsplit, hnot, hupd⟩
        refine ⟨x :: l1, l2, by rw [hsplit, List.cons_append], ?_, ?_⟩
        · intro hmem
          rcases List.mem_cons.mp hmem with h' | h'
          · exact hx h'.symm
          · exact hnot h'
        · rw [updateFirst, if_neg hx, hupd, List.cons_append]

theorem getBG_cons (p : String × List Donor) (r : Registry) (bg : String) :
    getBG (p :: r) bg = if p.1 == bg then p.2 else getBG r bg := rfl

theorem markInRegistry_cons (p : String × List Donor) (r : Registry) (d : Donor) (now : Nat) :
    markInRegistry (p :: r) d now =
      (if p.1 == d.blood_group then (p.1, updateFirst p.2 d now) else p) ::
        markInRegistry r d now := rfl

theorem getBG_markInRegistry (r : Registry) (d : Donor) (now : Nat) (bg : String) :
    getBG (markInRegistry r d now) bg =
      if bg = d.blood_group then updateFirst (getBG r bg) d now else getBG r bg := by
  induction r with
  | nil =>
    by_cases hbg : bg = d.blood_group
    · simp [getBG, markInRegistry, hbg, updateFirst]
    · simp [getBG, markInRegistry, hbg]
  | cons p r' ih =>
    rw [markInRegistry_cons]
    by_cases hpd : (p.1 == d.blood_group) = true
    · have hpd' : p.1 = d.blood_group := by simpa using hpd
      rw [if_pos hpd, getBG_cons, getBG_cons]
      by_cases hpb : (p.1 == bg) = true
      · have hbg : bg = d.blood_group := by
          have hpb' : p.1 = bg := by simpa using hpb
          rw [← hpb', hpd']
        rw [if_pos hpb, if_pos hpb, if_pos hbg]
      · have hbg : ¬ bg = d.blood_group := by
          intro hc
          exact hpb (by simp [hpd', hc])
        rw [if_neg hpb, if_neg hpb, if_neg hbg, ih, if_neg hbg]
    · rw [if_neg hpd, getBG_cons, getBG_cons]
      by_cases hpb : (p.1 == bg) = true
      · have hbg : ¬ bg = d.blood_group := by
          intro hc
          have hpb' : p.1 = bg := by simpa using hpb
          exact hpd (by simp [hpb', hc])
        rw [if_pos hpb, if_pos hpb, if_neg hbg]
      · rw [if_neg hpb, if_neg hpb, ih]

/-! ### Helper lemmas: registry well-formedness is preserved -/

theorem WFRegistry_appendBG (r : Registry) (bg : String) (d : Donor)
    (hwf : WFRegistry r) (hd : d.blood_group = bg) : WFRegistry (appendBG r bg d) := by
  unfold appendBG
  by_cases hk : (r.find? (fun p => p.1 == bg)).isSome = true
  · rw [if_pos hk]
    intro p hp e he
    rcases List.mem_map.mp hp with ⟨q, hq, hfq⟩
    by_cases hqb : (q.1 == bg) = true
    · rw [if_pos hqb] at hfq
      subst hfq
      rcases List.mem_append.mp he with h' | h'
      · exact hwf q hq e h'
      · rcases List.mem_singleton.mp h' with rfl
        have : q.1 = bg := by simpa using hqb
        simpa [this] using hd
    · rw [if_neg hqb] at hfq
      subst hfq
      exact hwf q hq e he
  · rw [if_neg hk]
    intro p hp e he
    rcases List.mem_append.mp hp with h' | h'
    · exact hwf p h' e he
    · rcases List.mem_singleton.mp h' with rfl
      rcases List.mem_singleton.mp he with rfl
      simpa using hd

theorem ticketLe_total (a b : ETicket) : ticketLe a b = true ∨ ticketLe b a = true := by
  simp only [ticketLe, Bool.or_eq_true, Bool.and_eq_true, decide_eq_true_eq, beq_iff_eq]
  omega

theorem ticketLe_trans (a b c : ETicket) (h1 : ticketLe a b = true)
    (h2 : ticketLe b c = true) : ticketLe a c = true := by
  simp only [ticketLe, Bool.or_eq_true, Bool.and_eq_true, decide_eq_true_eq, beq_iff_eq] at *
  omega

/-! ## Concrete instances used by counterexamples and witnesses -/

/-- An eligible universal donor at Hospital A (site 0). -/
def oneDonor : Donor :=
  { id := 7, name := "J", blood_group := "O-", location := 0,
    last_donation_date := some 0, total_donations := 0 }

/-- A registry holding exactly `oneDonor`, as built by registration. -/
def oneReg : Registry := [("O-", [oneDonor])]

/-- First-registered donor of the C1 counterexample (type A+, site 0). -/
def cDonorX : Donor :=
  { id := 1, name := "X", blood_group := "A+", location := 0,
    last_donation_date := some 0, total_donations := 0 }

/-- Second-registered donor of the C1 counterexample (type O-, site 0). -/
def cDonorY : Donor :=
  { id := 2, name := "Y", blood_group := "O-", location := 0,
    last_donation_date := some 0, total_donations := 0 }

/-- Registry built by registering `cDonorX` first and `cDonorY` second. -/
def c1Reg : Registry :=
  (add_donor (add_donor [] 1 "X" "A+" 0 (some 0)).2 2 "Y" "O-" 0 (some 0)).2

/-- A two-vertex graph with no edges: both sites known, no path. -/
def discGraph : Graph := [(0, []), (1, [])]

/-! ## Claim theorems -/

/-- C4: `is_donor_eligible` is true iff at least 90 days have elapsed
since the last donation (a date exactly 90 days before "now" counts as
eligible), and it is false - returned, not raised - when the date is
missing or unparsable (`last_donation_date = none`). -/
theorem c4_eligibility_rule (d : Donor) (now : Nat) :
    (∀ t, d.last_donation_date = some t →
      (is_donor_eligible now d = true ↔ t + 90 ≤ now)) ∧
    (d.last_donation_date = none → is_donor_eligible now d = false) ∧
    (∀ t, d.last_donation_date = some t → is_donor_eligible (t + 90) d = true) := by
  refine ⟨?_, ?_, ?_⟩
  · intro t ht
    simp [is_donor_eligible, ht]
  · intro ht
    simp [is_donor_eligible, ht]
  · intro t ht
    simp [is_donor_eligible, ht]

/-- A donor whose date parsed to day 100. -/
def datedDonor : Donor :=
  { id := 0, name := "", blood_group := "O-", location := 0,
    last_donation_date := some 100, total_donations := 0 }

/-- A donor whose date is missing or unparsable. -/
def undatedDonor : Donor :=
  { id := 0, name := "", blood_group := "O-", location := 0,
    last_donation_date := none, total_donations := 0 }

/-- Witness for C4 at concrete inputs: a donor 90 days past the last
donation is eligible; a donor with an unparsable date is not. -/
theorem c4_eligibility_rule_witness :
    is_donor_eligible 190 datedDonor = true ∧
    is_donor_eligible 1000 undatedDonor = false :=
  ⟨((c4_eligibility_rule datedDonor 190).1 100 rfl).mpr (by decide),
   (c4_eligibility_rule undatedDonor 1000).2.1 rfl⟩

/-- C7: on the deployed symmetric graph, `calculate_distance a a = 0`
for every known site, `calculate_distance` is symmetric on known sites,
an unknown endpoint yields the unreachable sentinel (`none`, Python's
`float('inf')`) instead of an error, and on a graph with two known but
disconnected sites the same sentinel is returned. -/
theorem c7_distance_algebra :
    (∀ a, a ∈ knownSites → calculate_distance a a = some 0) ∧
    (∀ a b, a ∈ knownSites → b ∈ knownSites →
      calculate_distance a b = calculate_distance b a) ∧
    (∀ a b, a ∉ knownSites ∨ b ∉ knownSites → calculate_distance a b = none) ∧
    ((0 : Loc) ∈ discGraph.map (fun p => p.1) ∧ (1 : Loc) ∈ discGraph.map (fun p => p.1) ∧
      calculate_distanceG discGraph 0 1 = none) := by
  refine ⟨?_, ?_, ?_, by decide⟩
  · intro a ha
    have h4 : a = 0 ∨ a = 1 ∨ a = 2 ∨ a = 3 := by
      simpa [knownSites, LOCATIONS] using ha
    rcases h4 with rfl | rfl | rfl | rfl <;> decide
  · intro a b ha hb
    have ha4 : a = 0 ∨ a = 1 ∨ a = 2 ∨ a = 3 := by
      simpa [knownSites, LOCATIONS] using ha
    have hb4 : b = 0 ∨ b = 1 ∨ b = 2 ∨ b = 3 := by
      simpa [knownSites, LOCATIONS] using hb
    rcases ha4 with rfl | rfl | rfl | rfl <;> rcases hb4 with rfl | rfl | rfl | rfl <;> decide
  · intro a b h
    exact calculate_distance_unknown h

/-- Witness for C7 at concrete sites. -/
theorem c7_distance_algebra_witness :
    calculate_distance 0 0 = some 0 ∧
    calculate_distance 0 2 = calculate_distance 2 0 ∧
    calculate_distance 99 0 = none :=
  ⟨c7_distance_algebra.1 0 (by decide),
   c7_distance_algebra.2.1 0 2 (by decide) (by decide),
   c7_distance_algebra.2.2.1 99 0 (Or.inl (by decide))⟩

/-- C8: whenever `find_nearest_donor` returns a donor, that donor is of
a blood type compatible with the (normalized) patient type and is
eligible at the match time.  The registry is assumed well-formed (each
bucket holds donors of its own type), which registration guarantees. -/
theorem c8_returned_donor_compatible_eligible (now : Nat) (r : Registry) (pbg : String)
    (ploc : Loc) (d : Donor) (o : Option Nat) (hwf : WFRegistry r)
    (h : find_nearest_donor now r pbg ploc = .found d o) :
    (∃ types, compatLookup (normalize_blood_group pbg) = some types ∧
      d.blood_group ∈ types) ∧
    is_donor_eligible now d = true := by
  rcases find_found_inv now r pbg ploc d o h with ⟨types, hc, hne, hfold⟩
  rcases sel_foldl_found now ploc _ _ _ _ hfold with hacc | ⟨hm, he, _⟩
  · exact absurd (congrArg Prod.fst hacc) (by simp)
  · rcases (mem_compatibleDonorsOf r types d).mp hm with ⟨t, ht, hdt⟩
    exact ⟨⟨types, hc, (getBG_blood_group r t d hwf hdt) ▸ ht⟩, he⟩

/-- Witness for C8: an AB+ request at Hospital C is served by the O-
donor, whose type is among AB+'s compatible types and who is eligible. -/
theorem c8_returned_donor_compatible_eligible_witness :
    (∃ types, compatLookup (normalize_blood_group "AB+") = some types ∧
      oneDonor.blood_group ∈ types) ∧
    is_donor_eligible 100 oneDonor = true :=
  c8_returned_donor_compatible_eligible 100 oneReg "AB+" 2 oneDonor (some 23)
    (by unfold WFRegistry; decide) (by decide)

/-- C1 counterexample: `cDonorX` (type A+) is registered before
`cDonorY` (type O-); both are eligible and tie at distance 0 from the
patient, yet `find_nearest_donor` returns the later-registered
`cDonorY`, because ties are broken by the order of
`BLOOD_COMPATIBILITY[patientType]` (O- donors are scanned before A+
donors), not by global registration order. -/
theorem c1_tiebreak_counterexample :
    c1Reg = [("A+", [cDonorX]), ("O-", [cDonorY])] ∧
    is_donor_eligible 100 cDonorX = true ∧
    is_donor_eligible 100 cDonorY = true ∧
    calculate_distance 0 cDonorX.location = some 0 ∧
    calculate_distance 0 cDonorY.location = some 0 ∧
    cDonorY ≠ cDonorX ∧
    find_nearest_donor 100 c1Reg "A+" 0 = .found cDonorY (some 0) := by
  decide

/-- C1 (amended): a returned donor minimizes the distance over all
compatible eligible donors; ties are broken by the donor\'s position in
the `all_compatible_donors` enumeration - donors of earlier types in
`BLOOD_COMPATIBILITY[patientType]` first, then per-type insertion
order - i.e. the returned donor strictly beats every eligible donor
listed before it. -/
theorem c1_min_distance_enumeration_tiebreak (now : Nat) (r : Registry) (pbg : String)
    (ploc : Loc) (d : Donor) (o : Option Nat)
    (h : find_nearest_donor now r pbg ploc = .found d o) :
    ∃ types m l1 l2,
      compatLookup (normalize_blood_group pbg) = some types ∧
      o = some m ∧
      compatibleDonorsOf r types = l1 ++ d :: l2 ∧
      is_donor_eligible now d = true ∧
      calculate_distance ploc d.location = some m ∧
      (∀ e ∈ compatibleDonorsOf r types, is_donor_eligible now e = true →
        optLtO (calculate_distance ploc e.location) (some m) = false) ∧
      (∀ e ∈ l1, is_donor_eligible now e = true →
        optLtO (some m) (calculate_distance ploc e.location) = true) := by
  rcases find_found_inv now r pbg ploc d o h with ⟨types, hc, hne, hfold⟩
  rcases sel_foldl_leftmost now ploc _ _ _ _ hfold with hacc | ⟨l1, l2, hsplit, hel, ho, hoacc, hall⟩
  · exact absurd (congrArg Prod.fst hacc) (by simp)
  · rcases optLtO_none_right (by simpa using hoacc) with ⟨m, rfl⟩
    exact ⟨types, m, l1, l2, hc, rfl, hsplit, hel, ho.symm,
      fun e he hee => sel_foldl_min now ploc _ _ _ _ hfold e he hee, hall⟩

/-- Witness for the amended C1, instantiated at the counterexample
state: the returned donor `cDonorY` achieves the minimum and beats
everything enumerated before it (nothing is). -/
theorem c1_min_distance_enumeration_tiebreak_witness :
    ∃ types m l1 l2,
      compatLookup (normalize_blood_group "A+") = some types ∧
      (some 0 : Option Nat) = some m ∧
      compatibleDonorsOf c1Reg types = l1 ++ cDonorY :: l2 ∧
      is_donor_eligible 100 cDonorY = true ∧
      calculate_distance 0 cDonorY.location = some m ∧
      (∀ e ∈ compatibleDonorsOf c1Reg types, is_donor_eligible 100 e = true →
        optLtO (calculate_distance 0 e.location) (some m) = false) ∧
      (∀ e ∈ l1, is_donor_eligible 100 e = true →
        optLtO (some m) (calculate_distance 0 e.location) = true) :=
  c1_min_distance_enumeration_tiebreak 100 c1Reg "A+" 0 cDonorY (some 0) (by decide)

/-- C2 counterexample: site 99 is unknown, the registry holds one
eligible compatible donor, and the match request is answered with the
`noneEligible` ("found N donor(s) but none are eligible") failure - not
with any invalid-site error, which `find_nearest_donor` does not even
have.  This falsifies "an invalid patient site is never reported as a
no-eligible-donors failure". -/
theorem c2_invalid_site_counterexample :
    (99 : Loc) ∉ knownSites ∧
    oneReg = [("O-", [oneDonor])] ∧
    is_donor_eligible 100 oneDonor = true ∧
    find_nearest_donor 100 oneReg "A+" 99 = .noneEligible 1 := by
  decide

/-- C2 (amended): an unnormalizable blood type fails with the
invalid-blood-group error, distinct from the two donor-failure results;
but the patient site is never validated: with an unknown patient site
every distance is the unreachable sentinel, so the match never
succeeds - it fails as `noCompatibleDonors` when no compatible donor is
registered and as the `noneEligible` failure otherwise. -/
theorem c2_validation_behaviour (now : Nat) (r : Registry) (pbg : String) (ploc : Loc)
    (hp : ploc ∉ knownSites) :
    (compatLookup (normalize_blood_group pbg) = none →
      find_nearest_donor now r pbg ploc = .invalidBloodGroup) ∧
    (∀ types, compatLookup (normalize_blood_group pbg) = some types →
      (compatibleDonorsOf r types = [] →
        find_nearest_donor now r pbg ploc = .noCompatibleDonors types) ∧
      (compatibleDonorsOf r types ≠ [] →
        find_nearest_donor now r pbg ploc = .noneEligible
          (compatibleDonorsOf r types).length)) := by
  have hfu := find_unknown_site now r pbg ploc hp
  constructor
  · intro hc
    rw [hfu, hc]
  · intro types hc
    constructor
    · intro hce
      rw [hfu, hc]
      simp [hce]
    · intro hcne
      rw [hfu, hc]
      simp [hcne]

/-- Witness for the amended C2: with the unknown site 99 and one
eligible compatible donor registered, the request fails as
`noneEligible`; with an invalid blood type it fails as
`invalidBloodGroup`. -/
theorem c2_validation_behaviour_witness :
    find_nearest_donor 100 oneReg "A+" 99 =
      .noneEligible (compatibleDonorsOf oneReg ["O-", "O+", "A-", "A+"]).length ∧
    find_nearest_donor 100 oneReg "XX" 99 = .invalidBloodGroup :=
  ⟨((c2_validation_behaviour 100 oneReg "A+" 99 (by decide)).2
      ["O-", "O+", "A-", "A+"] (by decide)).2 (by decide),
   (c2_validation_behaviour 100 oneReg "XX" 99 (by decide)).1 (by decide)⟩

/-- Core frame lemma: when `find_nearest_donor` returns `d`, the donor
sits in its own bucket, and marking it rewrites exactly its first
occurrence there, leaving every other bucket (and every other donor of
its bucket) unchanged. -/
theorem found_mark_frame (now : Nat) (r : Registry) (pbg : String) (ploc : Loc) (d : Donor)
    (o : Option Nat) (hwf : WFRegistry r)
    (h : find_nearest_donor now r pbg ploc = .found d o) :
    ∃ l1 l2, getBG r d.blood_group = l1 ++ d :: l2 ∧ d ∉ l1 ∧
      getBG (markInRegistry r d now) d.blood_group = l1 ++ markDonated now d :: l2 ∧
      ∀ bg2, bg2 ≠ d.blood_group → getBG (markInRegistry r d now) bg2 = getBG r bg2 := by
  have hmem : d ∈ getBG r d.blood_group := by
    rcases find_found_inv now r pbg ploc d o h with ⟨types, hc, hne, hfold⟩
    rcases sel_foldl_found now ploc _ _ _ _ hfold with hacc | ⟨hm, _, _⟩
    · exact absurd (congrArg Prod.fst hacc) (by simp)
    · rcases (mem_compatibleDonorsOf r types d).mp hm with ⟨t, ht, hdt⟩
      have hbt := getBG_blood_group r t d hwf hdt
      exact hbt ▸ hdt
  rcases updateFirst_of_mem (getBG r d.blood_group) d now hmem with ⟨l1, l2, hsplit, hnot, hupd⟩
  refine ⟨l1, l2, hsplit, hnot, ?_, ?_⟩
  · rw [getBG_markInRegistry, if_pos rfl, hupd]
  · intro bg2 hbg2
    rw [getBG_markInRegistry, if_neg hbg2]

/-- Unfolding of `match_donor` on a successful find. -/
theorem match_donor_found_eq (now : Nat) (bg : String) (loc : Loc) (st : SysState)
    (d : Donor) (dist : Option Nat)
    (hf : find_nearest_donor now st.registry bg loc = .found d dist) :
    match_donor now bg loc st =
      (.matched (markDonated now d) dist,
       { st with
         registry := markInRegistry st.registry d now,
         matching_history := st.matching_history ++
           [{ tstamp := now, kind := "Normal", urgency := none,
              patient_blood := normalize_blood_group bg, patient_location := loc,
              donor_name := d.name, donor_blood := d.blood_group,
              donor_location := d.location, distance_km := dist }] }) := by
  simp only [match_donor, hf]

/-- Unfolding of `process_next_emergency` on a successful find. -/
theorem pne_found_eq (now : Nat) (st : SysState) (t : ETicket) (rest : List ETicket)
    (d : Donor) (dist : Option Nat)
    (hq : popMinBy ticketLe st.emergency_requests = some (t, rest))
    (hf : find_nearest_donor now st.registry t.patient_bg t.patient_loc = .found d dist) :
    process_next_emergency now st =
      (.matched t (markDonated now d) dist,
       { st with
         emergency_requests := rest,
         registry := markInRegistry st.registry d now,
         matching_history := st.matching_history ++
           [{ tstamp := now, kind := "Emergency", urgency := some t.urgency,
              patient_blood := t.patient_bg, patient_location := t.patient_loc,
              donor_name := d.name, donor_blood := d.blood_group,
              donor_location := d.location, distance_km := dist }] }) := by
  simp only [process_next_emergency, hq, hf]

/-- C3: on every successful match - normal or emergency - the matched
donor gets `last_donation_date = now` and `total_donations + 1`, its
first occurrence in its bucket is the only registry entry that changes,
exactly one record is appended to `matching_history`, and the donor
mutation and the ledger append happen together: on any failed match
(and on an empty queue) registry and ledger are both left unchanged. -/
theorem c3_match_mutation_ledger (now : Nat) (st : SysState) (hwf : WFRegistry st.registry) :
    (∀ bg loc d' o, (match_donor now bg loc st).1 = .matched d' o →
      ∃ d l1 l2,
        d' = markDonated now d ∧
        d'.last_donation_date = some now ∧
        d'.total_donations = d.total_donations + 1 ∧
        getBG st.registry d.blood_group = l1 ++ d :: l2 ∧
        getBG (match_donor now bg loc st).2.registry d.blood_group =
          l1 ++ markDonated now d :: l2 ∧
        (∀ bg2, bg2 ≠ d.blood_group →
          getBG (match_donor now bg loc st).2.registry bg2 = getBG st.registry bg2) ∧
        (match_donor now bg loc st).2.matching_history =
          st.matching_history ++
            [{ tstamp := now, kind := "Normal", urgency := none,
               patient_blood := normalize_blood_group bg, patient_location := loc,
               donor_name := d.name, donor_blood := d.blood_group,
               donor_location := d.location, distance_km := o }] ∧
        (match_donor now bg loc st).2.emergency_requests = st.emergency_requests ∧
        (match_donor now bg loc st).2.emergency_counter = st.emergency_counter) ∧
    (∀ bg loc e, (match_donor now bg loc st).1 = .failed e →
      (match_donor now bg loc st).2 = st) ∧
    (∀ t d' o, (process_next_emergency now st).1 = .matched t d' o →
      ∃ d l1 l2,
        d' = markDonated now d ∧
        d'.last_donation_date = some now ∧
        d'.total_donations = d.total_donations + 1 ∧
        getBG st.registry d.blood_group = l1 ++ d :: l2 ∧
        getBG (process_next_emergency now st).2.registry d.blood_group =
          l1 ++ markDonated now d :: l2 ∧
        (∀ bg2, bg2 ≠ d.blood_group →
          getBG (process_next_emergency now st).2.registry bg2 = getBG st.registry bg2) ∧
        (process_next_emergency now st).2.matching_history =
          st.matching_history ++
            [{ tstamp := now, kind := "Emergency", urgency := some t.urgency,
               patient_blood := t.patient_bg, patient_location := t.patient_loc,
               donor_name := d.name, donor_blood := d.blood_group,
               donor_location := d.location, distance_km := o }]) ∧
    (∀ t e, (process_next_emergency now st).1 = .noMatch t e →
      (process_next_emergency now st).2.registry = st.registry ∧
      (process_next_emergency now st).2.matching_history = st.matching_history) ∧
    ((process_next_emergency now st).1 = .queueEmpty →
      (process_next_emergency now st).2 = st) := by
  refine ⟨?_, ?_, ?_, ?_, ?_⟩
  · intro bg loc d' o h1
    cases hf : find_nearest_donor now st.registry bg loc with
    | found d2 dist =>
      rw [match_donor_found_eq now bg loc st d2 dist hf] at h1
      obtain ⟨h1a, h1b⟩ := MatchOutcome.matched.inj h1
      rw [← h1a, ← h1b]
      rcases found_mark_frame now st.registry bg loc d2 dist hwf hf with
        ⟨l1, l2, hsplit, hnot, hupd, hother⟩
      refine ⟨d2, l1, l2, rfl, by simp [markDonated], by simp [markDonated], hsplit,
        ?_, ?_, ?_, ?_, ?_⟩
      · rw [match_donor_found_eq now bg loc st d2 dist hf]
        exact hupd
      · intro bg2 hbg2
        rw [match_donor_found_eq now bg loc st d2 dist hf]
        exact hother bg2 hbg2
      · rw [match_donor_found_eq now bg loc st d2 dist hf]
      · rw [match_donor_found_eq now bg loc st d2 dist hf]
      · rw [match_donor_found_eq now bg loc st d2 dist hf]
    | invalidBloodGroup => simp [match_donor, hf] at h1
    | noCompatibleDonors types => simp [match_donor, hf] at h1
    | noneEligible n => simp [match_donor, hf] at h1
  · intro bg loc e h1
    cases hf : find_nearest_donor now st.registry bg loc with
    | found d2 dist => rw [match_donor_found_eq now bg loc st d2 dist hf] at h1; simp at h1
    | invalidBloodGroup => simp only [match_donor, hf]
    | noCompatibleDonors types => simp only [match_donor, hf]
    | noneEligible n => simp only [match_donor, hf]
  · intro t d' o h1
    cases hq : popMinBy ticketLe st.emergency_requests with
    | none => simp [process_next_emergency, hq] at h1
    | some tr =>
      obtain ⟨t2, rest⟩ := tr
      cases hf : find_nearest_donor now st.registry t2.patient_bg t2.patient_loc with
      | found d2 dist =>
        rw [pne_found_eq now st t2 rest d2 dist hq hf] at h1
        obtain ⟨h1t, h1a, h1b⟩ := PNResult.matched.inj h1
        rw [← h1t, ← h1a, ← h1b]
        rcases found_mark_frame now st.registry t2.patient_bg t2.patient_loc d2 dist hwf hf with
          ⟨l1, l2, hsplit, hnot, hupd, hother⟩
        refine ⟨d2, l1, l2, rfl, by simp [markDonated], by simp [markDonated], hsplit,
          ?_, ?_, ?_⟩
        · rw [pne_found_eq now st t2 rest d2 dist hq hf]
          exact hupd
        · intro bg2 hbg2
          rw [pne_found_eq now st t2 rest d2 dist hq hf]
          exact hother bg2 hbg2
        · rw [pne_found_eq now st t2 rest d2 dist hq hf]
      | invalidBloodGroup => simp [process_next_emergency, hq, hf] at h1
      | noCompatibleDonors types => simp [process_next_emergency, hq, hf] at h1
      | noneEligible n => simp [process_next_emergency, hq, hf] at h1
  · intro t e h1
    cases hq : popMinBy ticketLe st.emergency_requests with
    | none => simp [process_next_emergency, hq] at h1
    | some tr =>
      obtain ⟨t2, rest⟩ := tr
      cases hf : find_nearest_donor now st.registry t2.patient_bg t2.patient_loc with
      | found d2 dist => rw [pne_found_eq now st t2 rest d2 dist hq hf] at h1; simp at h1
      | invalidBloodGroup => exact ⟨by simp only [process_next_emergency, hq, hf],
          by simp only [process_next_emergency, hq, hf]⟩
      | noCompatibleDonors types => exact ⟨by simp only [process_next_emergency, hq, hf],
          by simp only [process_next_emergency, hq, hf]⟩
      | noneEligible n => exact ⟨by simp only [process_next_emergency, hq, hf],
          by simp only [process_next_emergency, hq, hf]⟩
  · intro h1
    cases hq : popMinBy ticketLe st.emergency_requests with
    | none => simp only [process_next_emergency, hq]
    | some tr =>
      obtain ⟨t2, rest⟩ := tr
      cases hf : find_nearest_donor now st.registry t2.patient_bg t2.patient_loc with
      | found d2 dist => rw [pne_found_eq now st t2 rest d2 dist hq hf] at h1; simp at h1
      | invalidBloodGroup => simp [process_next_emergency, hq, hf] at h1
      | noCompatibleDonors types => simp [process_next_emergency, hq, hf] at h1
      | noneEligible n => simp [process_next_emergency, hq, hf] at h1

/-- State with one registered donor and an empty queue. -/
def wSt : SysState :=
  { registry := oneReg, emergency_requests := [], emergency_counter := 0,
    matching_history := [] }

/-- Witness for C3: the normal-match branch applied at a concrete
state where the O- donor is matched at distance 0. -/
theorem c3_match_mutation_ledger_witness :
    ∃ d l1 l2,
      markDonated 100 oneDonor = markDonated 100 d ∧
      (markDonated 100 oneDonor).last_donation_date = some 100 ∧
      (markDonated 100 oneDonor).total_donations = d.total_donations + 1 ∧
      getBG wSt.registry d.blood_group = l1 ++ d :: l2 ∧
      getBG (match_donor 100 "A+" 0 wSt).2.registry d.blood_group =
        l1 ++ markDonated 100 d :: l2 ∧
      (∀ bg2, bg2 ≠ d.blood_group →
        getBG (match_donor 100 "A+" 0 wSt).2.registry bg2 = getBG wSt.registry bg2) ∧
      (match_donor 100 "A+" 0 wSt).2.matching_history =
        wSt.matching_history ++
          [{ tstamp := 100, kind := "Normal", urgency := none,
             patient_blood := normalize_blood_group "A+", patient_location := 0,
             donor_name := d.name, donor_blood := d.blood_group,
             donor_location := d.location, distance_km := some 0 }] ∧
      (match_donor 100 "A+" 0 wSt).2.emergency_requests = wSt.emergency_requests ∧
      (match_donor 100 "A+" 0 wSt).2.emergency_counter = wSt.emergency_counter :=
  (c3_match_mutation_ledger 100 wSt (by unfold WFRegistry; decide)).1 "A+" 0
    (markDonated 100 oneDonor) (some 0) (by decide)

/-- C6: `process_next_emergency` on an empty queue fails with the
queue-empty error and leaves the whole state unchanged (and the
queue-empty result only arises from an empty queue); on a non-empty
queue it removes exactly the minimal ticket under (urgency, sequence)
order, and when no donor is found the ticket stays consumed - the new
queue is the remainder - and the failure is returned together with the
consumed ticket. -/
theorem c6_process_next_consumes (now : Nat) (st : SysState) :
    (st.emergency_requests = [] → process_next_emergency now st = (.queueEmpty, st)) ∧
    ((process_next_emergency now st).1 = .queueEmpty → st.emergency_requests = []) ∧
    (∀ t rest, popMinBy ticketLe st.emergency_requests = some (t, rest) →
      (∀ u ∈ st.emergency_requests, ticketLe t u = true) ∧
      st.emergency_requests.Perm (t :: rest) ∧
      (process_next_emergency now st).2.emergency_requests = rest ∧
      (isFound (find_nearest_donor now st.registry t.patient_bg t.patient_loc) = false →
        (process_next_emergency now st).1 =
          .noMatch t (find_nearest_donor now st.registry t.patient_bg t.patient_loc))) := by
  refine ⟨?_, ?_, ?_⟩
  · intro hq
    have hemp : popMinBy ticketLe st.emergency_requests = none :=
      (popMinBy_eq_none ticketLe st.emergency_requests).mpr hq
    simp only [process_next_emergency, hemp]
  · intro h1
    cases hq : popMinBy ticketLe st.emergency_requests with
    | none => exact (popMinBy_eq_none ticketLe st.emergency_requests).mp hq
    | some tr =>
      obtain ⟨t2, rest⟩ := tr
      cases hf : find_nearest_donor now st.registry t2.patient_bg t2.patient_loc with
      | found d2 dist => simp [process_next_emergency, hq, hf] at h1
      | invalidBloodGroup => simp [process_next_emergency, hq, hf] at h1
      | noCompatibleDonors types => simp [process_next_emergency, hq, hf] at h1
      | noneEligible n => simp [process_next_emergency, hq, hf] at h1
  · intro t rest hq
    refine ⟨popMinBy_min ticketLe ticketLe_total ticketLe_trans _ t rest hq,
      popMinBy_perm ticketLe _ t rest hq, ?_, ?_⟩
    · cases hf : find_nearest_donor now st.registry t.patient_bg t.patient_loc with
      | found d2 dist => simp only [process_next_emergency, hq, hf]
      | invalidBloodGroup => simp only [process_next_emergency, hq, hf]
      | noCompatibleDonors types => simp only [process_next_emergency, hq, hf]
      | noneEligible n => simp only [process_next_emergency, hq, hf]
    · intro hnf
      cases hf : find_nearest_donor now st.registry t.patient_bg t.patient_loc with
      | found d2 dist => rw [hf] at hnf; simp [isFound] at hnf
      | invalidBloodGroup => simp only [process_next_emergency, hq, hf]
      | noCompatibleDonors types => simp only [process_next_emergency, hq, hf]
      | noneEligible n => simp only [process_next_emergency, hq, hf]

/-- An emergency ticket for an AB- patient at an unknown site, so no
donor can be found for it. -/
def tick1 : ETicket :=
  { urgency := 2, seq := 1, rid := 0, patient_bg := "AB-", patient_loc := 99, tstamp := 0 }

/-- State with one registered donor and `tick1` queued. -/
def qSt : SysState :=
  { registry := oneReg, emergency_requests := [tick1], emergency_counter := 1,
    matching_history := [] }

/-- Witness for C6: the empty-queue branch at `wSt`, and the
consume-on-failure branch at `qSt` (whose single ticket is unmatchable
because its site is unknown). -/
theorem c6_process_next_consumes_witness :
    process_next_emergency 100 wSt = (.queueEmpty, wSt) ∧
    ((∀ u ∈ qSt.emergency_requests, ticketLe tick1 u = true) ∧
      qSt.emergency_requests.Perm (tick1 :: []) ∧
      (process_next_emergency 100 qSt).2.emergency_requests = [] ∧
      (isFound (find_nearest_donor 100 qSt.registry tick1.patient_bg tick1.patient_loc) = false →
        (process_next_emergency 100 qSt).1 =
          .noMatch tick1 (find_nearest_donor 100 qSt.registry tick1.patient_bg tick1.patient_loc))) :=
  ⟨(c6_process_next_consumes 100 wSt).1 rfl,
   (c6_process_next_consumes 100 qSt).2.2 tick1 [] (by decide)⟩

/-! ### Helper lemmas and equations for submission and registration -/

/-- Unfolding of `emergency_request` on an accepted integer urgency. -/
theorem emergency_request_jint_eq (st : SysState) (n : Int) (bgs : String) (l : Loc)
    (rid tstamp : Nat) (hb : bgs.isEmpty = false) (hn : ¬(n < 1 ∨ 5 < n)) :
    emergency_request st (.jint n) (some bgs) (some l) rid tstamp =
      (.added rid n (st.emergency_requests.length + 1),
       { st with
         emergency_counter := st.emergency_counter + 1,
         emergency_requests := st.emergency_requests ++
           [{ urgency := n, seq := st.emergency_counter + 1, rid := rid,
              patient_bg := bgs, patient_loc := l, tstamp := tstamp }] }) := by
  simp only [emergency_request, hb, Bool.false_eq_true, if_false, hn]

/-- Unfolding of `emergency_request` when the urgency field is absent. -/
theorem emergency_request_absent_eq (st : SysState) (bgs : String) (l : Loc)
    (rid tstamp : Nat) (hb : bgs.isEmpty = false) :
    emergency_request st .absent (some bgs) (some l) rid tstamp =
      (.added rid 1 (st.emergency_requests.length + 1),
       { st with
         emergency_counter := st.emergency_counter + 1,
         emergency_requests := st.emergency_requests ++
           [{ urgency := 1, seq := st.emergency_counter + 1, rid := rid,
              patient_bg := bgs, patient_loc := l, tstamp := tstamp }] }) := by
  simp only [emergency_request, hb, Bool.false_eq_true, if_false]

/-- Unfolding of `add_donor` when blood type and site are valid. -/
theorem add_donor_ok_eq (r : Registry) (id : Nat) (name : String) (bgRaw : String)
    (loc : Loc) (ldd : Option Nat)
    (h1 : (compatLookup (normalize_blood_group bgRaw)).isNone = false)
    (h2 : (LOCATIONS.find? (fun p => p.1 == loc)).isNone = false) :
    add_donor r id name bgRaw loc ldd =
      (.added { id := id, name := name, blood_group := normalize_blood_group bgRaw,
                location := loc, last_donation_date := ldd, total_donations := 0 },
       appendBG r (normalize_blood_group bgRaw)
         { id := id, name := name, blood_group := normalize_blood_group bgRaw,
           location := loc, last_donation_date := ldd, total_donations := 0 }) := by
  simp only [add_donor, h1, h2, Bool.false_eq_true, if_false]

/-- A `found` result is always an eligible donor. -/
theorem found_is_eligible (now : Nat) (r : Registry) (pbg : String) (ploc : Loc)
    (d : Donor) (o : Option Nat) (h : find_nearest_donor now r pbg ploc = .found d o) :
    is_donor_eligible now d = true := by
  rcases find_found_inv now r pbg ploc d o h with ⟨types, _, _, hfold⟩
  rcases sel_foldl_found now ploc _ _ _ _ hfold with hacc | ⟨_, he, _⟩
  · exact absurd (congrArg Prod.fst hacc) (by simp)
  · exact he

theorem getBG_appendBG_self (r : Registry) (bg : String) (d : Donor) :
    getBG (appendBG r bg d) bg = getBG r bg ++ [d] := by
  induction r with
  | nil => simp [appendBG, getBG]
  | cons p r' ih =>
    by_cases hpb : (p.1 == bg) = true
    · have hfind : (p :: r').find? (fun q => q.1 == bg) = some p :=
        List.find?_cons_of_pos r' hpb
      simp only [appendBG, hfind, Option.isSome_some, if_true, List.map_cons]
      rw [if_pos hpb, getBG_cons, getBG_cons]
      simp [hpb]
    · have hfind : (p :: r').find? (fun q => q.1 == bg) = r'.find? (fun q => q.1 == bg) :=
        List.find?_cons_of_neg r' (by simp [hpb])
      by_cases hk : (r'.find? (fun q => q.1 == bg)).isSome = true
      · simp only [appendBG, hfind, hk, if_true, List.map_cons]
        rw [if_neg hpb, getBG_cons]
        simp only [hpb, Bool.false_eq_true, if_false]
        rw [getBG_cons]
        simp only [hpb, Bool.false_eq_true, if_false]
        have := ih
        simp only [appendBG, hk, if_true] at this
        exact this
      · simp only [appendBG, hfind, hk, Bool.false_eq_true, if_false, List.cons_append]
        rw [getBG_cons]
        simp only [hpb, Bool.false_eq_true, if_false]
        rw [getBG_cons]
        simp only [hpb, Bool.false_eq_true, if_false]
        have := ih
        simp only [appendBG, hk, Bool.false_eq_true, if_false] at this
        exact this

theorem getBG_appendBG_other (r : Registry) (bg bg2 : String) (d : Donor)
    (hne : (bg2 == bg) = false) :
    getBG (appendBG r bg d) bg2 = getBG r bg2 := by
  induction r with
  | nil =>
    simp only [appendBG, List.find?_nil, Option.isSome_none, Bool.false_eq_true, if_false,
      List.nil_append]
    rw [getBG_cons]
    simp only [getBG]
    have : (bg == bg2) = false := by
      simp only [beq_eq_false_iff_ne, ne_eq] at hne ⊢
      exact fun hc => hne hc.symm
    simp [this]
  | cons p r' ih =>
    by_cases hk : ((p :: r').find? (fun q => q.1 == bg)).isSome = true
    · simp only [appendBG, hk, if_true, List.map_cons]
      by_cases hpd : (p.1 == bg) = true
      · rw [if_pos hpd, getBG_cons, getBG_cons]
        have hp2 : (p.1 == bg2) = false := by
          simp only [beq_eq_false_iff_ne, ne_eq] at hne ⊢
          have hp1 : p.1 = bg := by simpa using hpd
          exact fun hc => hne (by rw [← hc, hp1])
        simp only [hp2, Bool.false_eq_true, if_false]
        have hfind : (p :: r').find? (fun q => q.1 == bg) = some p :=
          List.find?_cons_of_pos r' hpd
        by_cases hk' : (r'.find? (fun q => q.1 == bg)).isSome = true
        · have := ih
          simp only [appendBG, hk', if_true] at this
          exact this
        · -- the tail has no `bg` key, so mapping it is the identity on lookups of bg2…
          have hmap : ∀ (l : List (String × List Donor)),
              (l.find? (fun q => q.1 == bg)) = none →
              getBG (l.map (fun q => if q.1 == bg then (q.1, q.2 ++ [d]) else q)) bg2 =
                getBG l bg2 := by
            intro l
            induction l with
            | nil => intro _; simp [getBG]
            | cons x xs ihx =>
              intro hfx
              have hx : (x.1 == bg) = false := by
                by_cases hxx : (x.1 == bg) = true
                · rw [List.find?_cons_of_pos xs hxx] at hfx
                  exact absurd hfx (by simp)
                · exact Bool.eq_false_iff.mpr hxx
              rw [List.find?_cons_of_neg xs (by simp [hx])] at hfx
              simp only [List.map_cons, hx, Bool.false_eq_true, if_false]
              rw [getBG_cons, getBG_cons]
              by_cases hx2 : (x.1 == bg2) = true
              · simp [hx2]
              · simp only [hx2, Bool.false_eq_true, if_false]
                exact ihx hfx
          have hnone : r'.find? (fun q => q.1 == bg) = none :=
            Option.not_isSome_iff_eq_none.mp hk'
          exact hmap r' hnone
      · rw [if_neg hpd, getBG_cons, getBG_cons]
        by_cases hp2 : (p.1 == bg2) = true
        · simp [hp2]
        · simp only [hp2, Bool.false_eq_true, if_false]
          have hfind : (p :: r').find? (fun q => q.1 == bg) = r'.find? (fun q => q.1 == bg) :=
            List.find?_cons_of_neg r' (by simp [hpd])
          rw [hfind] at hk
          have := ih
          simp only [appendBG, hk, if_true] at this
          exact this
    · simp only [appendBG, hk, Bool.false_eq_true, if_false, List.cons_append]
      rw [getBG_cons, getBG_cons]
      by_cases hp2 : (p.1 == bg2) = true
      · simp [hp2]
      · simp only [hp2, Bool.false_eq_true, if_false]
        have hfind : ((p :: r').find? (fun q => q.1 == bg)).isSome =
            (r'.find? (fun q => q.1 == bg)).isSome ∨ (p.1 == bg) = true := by
          by_cases hpd : (p.1 == bg) = true
          · exact Or.inr hpd
          · exact Or.inl (by rw [List.find?_cons_of_neg r' (by simp [hpd])])
        rcases hfind with hf | hpd
        · rw [hf] at hk
          have := ih
          simp only [appendBG, hk, Bool.false_eq_true, if_false] at this
          exact this
        · have hfp : (p :: r').find? (fun q => q.1 == bg) = some p :=
            List.find?_cons_of_pos r' hpd
          rw [hfp] at hk
          exact absurd (rfl : (some p).isSome = true) hk

/-- For a canonical blood type, the stats row is exactly
`(total, eligible, total - eligible)` computed live from the bucket. -/
theorem statsFor_canonical (now : Nat) (r : Registry) (bg : String)
    (h : (compatLookup bg).isSome = true) :
    statsFor now r bg =
      some ((getBG r bg).length,
        ((getBG r bg).filter (is_donor_eligible now)).length,
        (getBG r bg).length - ((getBG r bg).filter (is_donor_eligible now)).length) := by
  rcases Option.isSome_iff_exists.mp h with ⟨types, hc⟩
  unfold compatLookup at hc
  rcases Option.map_eq_some'.mp hc with ⟨p, hfind, _⟩
  have hp1 := List.find?_some hfind
  have hmem := List.mem_of_find?_eq_some hfind
  have hbg : p.1 = bg := by simpa using hp1
  subst hbg
  fin_cases hmem <;> rfl

/-- Initial empty engine state. -/
def exSt0 : SysState :=
  { registry := [], emergency_requests := [], emergency_counter := 0, matching_history := [] }

/-- One accepted submission with the given urgency (fixed dummy patient). -/
def exSubmit (st : SysState) (n : Int) : SysState :=
  (emergency_request st (.jint n) (some "A+") (some 0) 0 0).2

/-- Queue after submitting urgencies 3, 1, 3, 2 in that order. -/
def exQueue : List ETicket :=
  (exSubmit (exSubmit (exSubmit (exSubmit exSt0 3) 1) 3) 2).emergency_requests

/-- C5: an accepted submission increments the counter and assigns the
fresh sequence number counter+1, never equal to any sequence number
already in the queue (they are at most the old counter - an invariant
every `emergency_request` call preserves, so sequence numbers are
never reused); the dequeue order of any queue is sorted by
(urgency asc, sequence asc) and is a permutation of the queue; and
submitting urgencies (3,1,3,2) in that order dequeues (urgency, seq)
as (1,2), (2,4), (3,1), (3,3) - the two urgency-3 tickets in their
submission order (seq 1 before seq 3). -/
theorem c5_queue_total_order :
    (∀ (st : SysState) (n : Int) (bgs : String) (l : Loc) (rid tstamp : Nat),
      1 ≤ n → n ≤ 5 → bgs.isEmpty = false →
      ∃ t : ETicket,
        emergency_request st (.jint n) (some bgs) (some l) rid tstamp =
          (.added rid n (st.emergency_requests.length + 1),
           { st with
             emergency_counter := st.emergency_counter + 1,
             emergency_requests := st.emergency_requests ++ [t] }) ∧
        t.urgency = n ∧ t.seq = st.emergency_counter + 1 ∧
        (∀ u ∈ st.emergency_requests, u.seq ≤ st.emergency_counter → u.seq ≠ t.seq)) ∧
    (∀ (st : SysState) (urg : UrgField) (pbg : Option String) (ploc : Option Loc)
        (rid tstamp : Nat),
      (∀ u ∈ st.emergency_requests, u.seq ≤ st.emergency_counter) →
      ∀ u ∈ (emergency_request st urg pbg ploc rid tstamp).2.emergency_requests,
        u.seq ≤ (emergency_request st urg pbg ploc rid tstamp).2.emergency_counter) ∧
    (∀ l : List ETicket,
      (drainBy ticketLe l).Pairwise (fun a b => ticketLe a b = true) ∧
      (drainBy ticketLe l).Perm l) ∧
    (drainBy ticketLe exQueue).map (fun t => (t.urgency, t.seq)) =
      [(1, 2), (2, 4), (3, 1), (3, 3)] := by
  refine ⟨?_, ?_, ?_, by decide⟩
  · intro st n bgs l rid tstamp h1 h5 hb
    refine ⟨_, emergency_request_jint_eq st n bgs l rid tstamp hb (by omega), rfl, rfl, ?_⟩
    intro u hu hle
    show u.seq ≠ st.emergency_counter + 1
    omega
  · intro st urg pbg ploc rid tstamp hinv u hu
    match pbg, ploc with
    | none, _ =>
      simp only [emergency_request] at hu ⊢
      exact hinv u hu
    | some bgs, none =>
      simp only [emergency_request] at hu ⊢
      exact hinv u hu
    | some bgs, some l =>
      by_cases hbe : bgs.isEmpty = true
      · simp only [emergency_request, hbe, if_true] at hu ⊢
        exact hinv u hu
      · have hbf : bgs.isEmpty = false := Bool.eq_false_iff.mpr hbe
        cases urg with
        | nonInt =>
          simp only [emergency_request, hbf, Bool.false_eq_true, if_false] at hu ⊢
          exact hinv u hu
        | absent =>
          rw [emergency_request_absent_eq st bgs l rid tstamp hbf] at hu ⊢
          rcases List.mem_append.mp hu with h' | h'
          · exact Nat.le_succ_of_le (hinv u h')
          · rcases List.mem_singleton.mp h' with rfl
            exact Nat.le_refl _
        | jint n =>
          by_cases hn : n < 1 ∨ 5 < n
          · simp only [emergency_request, hbf, Bool.false_eq_true, if_false, if_pos hn] at hu ⊢
            exact hinv u hu
          · rw [emergency_request_jint_eq st n bgs l rid tstamp hbf hn] at hu ⊢
            rcases List.mem_append.mp hu with h' | h'
            · exact Nat.le_succ_of_le (hinv u h')
            · rcases List.mem_singleton.mp h' with rfl
              exact Nat.le_refl _
  · intro l
    exact ⟨drainBy_sorted ticketLe ticketLe_total ticketLe_trans l,
      drainBy_perm ticketLe l⟩

/-- Witness for C5 at a concrete submission. -/
theorem c5_queue_total_order_witness :
    ∃ t : ETicket,
      emergency_request wSt (.jint 3) (some "B-") (some 1) 5 42 =
        (.added 5 3 (wSt.emergency_requests.length + 1),
         { wSt with
           emergency_counter := wSt.emergency_counter + 1,
           emergency_requests := wSt.emergency_requests ++ [t] }) ∧
      t.urgency = 3 ∧ t.seq = wSt.emergency_counter + 1 ∧
      (∀ u ∈ wSt.emergency_requests, u.seq ≤ wSt.emergency_counter → u.seq ≠ t.seq) :=
  c5_queue_total_order.1 wSt 3 "B-" 1 5 42 (by decide) (by decide) (by decide)

/-- C9: a submission whose payload omits the urgency field is not
rejected: the urgency defaults to 1 and the ticket is enqueued, and in
the dequeue order of the new queue everything ahead of it has urgency
at most 1 - so it dequeues ahead of every ticket with urgency greater
than 1; a present urgency is rejected with the urgency error (state
unchanged) exactly when it is not an integer or an integer outside
1..5, and accepted otherwise. -/
theorem c9_missing_urgency_defaults (st : SysState) (bgs : String) (l : Loc)
    (rid tstamp : Nat) (hb : bgs.isEmpty = false) :
    (∃ t : ETicket,
      emergency_request st .absent (some bgs) (some l) rid tstamp =
        (.added rid 1 (st.emergency_requests.length + 1),
         { st with
           emergency_counter := st.emergency_counter + 1,
           emergency_requests := st.emergency_requests ++ [t] }) ∧
      t.urgency = 1 ∧
      (∃ p q, drainBy ticketLe (st.emergency_requests ++ [t]) = p ++ t :: q ∧
        ∀ u ∈ p, u.urgency ≤ 1)) ∧
    (emergency_request st .nonInt (some bgs) (some l) rid tstamp = (.invalidUrgency, st)) ∧
    (∀ n : Int, n < 1 ∨ 5 < n →
      emergency_request st (.jint n) (some bgs) (some l) rid tstamp = (.invalidUrgency, st)) ∧
    (∀ n : Int, 1 ≤ n → n ≤ 5 →
      (emergency_request st (.jint n) (some bgs) (some l) rid tstamp).1 =
        .added rid n (st.emergency_requests.length + 1)) := by
  refine ⟨?_, ?_, ?_, ?_⟩
  · refine ⟨_, emergency_request_absent_eq st bgs l rid tstamp hb, rfl, ?_⟩
    generalize hts : ({ urgency := 1, seq := st.emergency_counter + 1, rid := rid, patient_bg := bgs, patient_loc := l, tstamp := tstamp } : ETicket) = t
    have hturg : t.urgency = 1 := by rw [← hts]
    have hmem : t ∈ drainBy ticketLe (st.emergency_requests ++ [t]) :=
      (drainBy_perm ticketLe _).mem_iff.mpr
        (List.mem_append_right _ (List.mem_singleton_self t))
    rcases List.append_of_mem hmem with ⟨p, q, hpq⟩
    refine ⟨p, q, hpq, ?_⟩
    intro u hu
    have hsor := drainBy_sorted ticketLe ticketLe_total ticketLe_trans
      (st.emergency_requests ++ [t])
    rw [hpq] at hsor
    have hle : ticketLe u t = true :=
      (List.pairwise_append.mp hsor).2.2 u hu t (List.mem_cons_self t q)
    simp only [ticketLe, Bool.or_eq_true, Bool.and_eq_true, decide_eq_true_eq,
      beq_iff_eq, hturg] at hle
    omega
  · simp only [emergency_request, hb, Bool.false_eq_true, if_false]
  · intro n hn
    simp only [emergency_request, hb, Bool.false_eq_true, if_false, if_pos hn]
  · intro n h1 h5
    rw [emergency_request_jint_eq st n bgs l rid tstamp hb (by omega)]

/-- Witness for C9 at the concrete queue state `qSt` (one urgency-2
ticket queued): the defaulted urgency-1 ticket dequeues ahead of it. -/
theorem c9_missing_urgency_defaults_witness :
    (∃ t : ETicket,
      emergency_request qSt .absent (some "O-") (some 0) 9 7 =
        (.added 9 1 (qSt.emergency_requests.length + 1),
         { qSt with
           emergency_counter := qSt.emergency_counter + 1,
           emergency_requests := qSt.emergency_requests ++ [t] }) ∧
      t.urgency = 1 ∧
      (∃ p q, drainBy ticketLe (qSt.emergency_requests ++ [t]) = p ++ t :: q ∧
        ∀ u ∈ p, u.urgency ≤ 1)) ∧
    (emergency_request qSt .nonInt (some "O-") (some 0) 9 7 = (.invalidUrgency, qSt)) ∧
    (∀ n : Int, n < 1 ∨ 5 < n →
      emergency_request qSt (.jint n) (some "O-") (some 0) 9 7 = (.invalidUrgency, qSt)) ∧
    (∀ n : Int, 1 ≤ n → n ≤ 5 →
      (emergency_request qSt (.jint n) (some "O-") (some 0) 9 7).1 =
        .added 9 n (qSt.emergency_requests.length + 1)) :=
  c9_missing_urgency_defaults qSt "O-" 0 9 7 (by decide)

/-- C10: registration validates only blood type and site - it succeeds
for every date field, parsable or not; a donor stored with an
unparsable date (`none`) is counted in its type total of the live
stats, is never eligible at any time, and is never the donor returned
by `find_nearest_donor`. -/
theorem c10_register_unvalidated_date (r : Registry) (id : Nat) (name : String)
    (bgRaw : String) (loc : Loc) (ldd : Option Nat) (now : Nat)
    (hbg : (compatLookup (normalize_blood_group bgRaw)).isSome = true)
    (hloc : (LOCATIONS.find? (fun p => p.1 == loc)).isSome = true) :
    ∃ d : Donor,
      add_donor r id name bgRaw loc ldd =
        (.added d, appendBG r (normalize_blood_group bgRaw) d) ∧
      d.last_donation_date = ldd ∧
      d.blood_group = normalize_blood_group bgRaw ∧
      (ldd = none →
        (∀ now2, is_donor_eligible now2 d = false) ∧
        (∃ tot elig,
          statsFor now r d.blood_group = some (tot, elig, tot - elig) ∧
          statsFor now (appendBG r d.blood_group d) d.blood_group =
            some (tot + 1, elig, tot + 1 - elig)) ∧
        (∀ now2 pbg2 ploc2 d2 o2,
          find_nearest_donor now2 (appendBG r d.blood_group d) pbg2 ploc2 = .found d2 o2 →
          d2 ≠ d)) := by
  have h1 : (compatLookup (normalize_blood_group bgRaw)).isNone = false := by
    rcases Option.isSome_iff_exists.mp hbg with ⟨x, hx⟩
    simp [hx]
  have h2 : (LOCATIONS.find? (fun p => p.1 == loc)).isNone = false := by
    rcases Option.isSome_iff_exists.mp hloc with ⟨x, hx⟩
    simp [hx]
  refine ⟨_, add_donor_ok_eq r id name bgRaw loc ldd h1 h2, rfl, rfl, ?_⟩
  intro hldd
  subst hldd
  refine ⟨?_, ?_, ?_⟩
  · intro now2
    simp [is_donor_eligible]
  · refine ⟨(getBG r (normalize_blood_group bgRaw)).length,
      ((getBG r (normalize_blood_group bgRaw)).filter (is_donor_eligible now)).length,
      statsFor_canonical now r _ hbg, ?_⟩
    rw [statsFor_canonical now _ _ hbg, getBG_appendBG_self]
    have hfil : ((getBG r (normalize_blood_group bgRaw)) ++
          [({ id := id, name := name, blood_group := normalize_blood_group bgRaw,
              location := loc, last_donation_date := none,
              total_donations := 0 } : Donor)]).filter (is_donor_eligible now) =
        (getBG r (normalize_blood_group bgRaw)).filter (is_donor_eligible now) := by
      rw [List.filter_append]
      simp [is_donor_eligible]
    rw [hfil]
    simp
  · intro now2 pbg2 ploc2 d2 o2 hf heq
    have he := found_is_eligible now2 _ pbg2 ploc2 d2 o2 hf
    rw [heq] at he
    simp [is_donor_eligible] at he

/-- Witness for C10: registering a donor with an unparsable date into
the empty registry succeeds, the O- total goes 0 to 1, and no query
ever returns that donor. -/
theorem c10_register_unvalidated_date_witness :
    ∃ d : Donor,
      add_donor [] 3 "N" "o -" 2 none =
        (.added d, appendBG [] (normalize_blood_group "o -") d) ∧
      d.last_donation_date = none ∧
      d.blood_group = normalize_blood_group "o -" ∧
      (none = (none : Option Nat) →
        (∀ now2, is_donor_eligible now2 d = false) ∧
        (∃ tot elig,
          statsFor 100 [] d.blood_group = some (tot, elig, tot - elig) ∧
          statsFor 100 (appendBG [] d.blood_group d) d.blood_group =
            some (tot + 1, elig, tot + 1 - elig)) ∧
        (∀ now2 pbg2 ploc2 d2 o2,
          find_nearest_donor now2 (appendBG [] d.blood_group d) pbg2 ploc2 = .found d2 o2 →
          d2 ≠ d)) :=
  c10_register_unvalidated_date [] 3 "N" "o -" 2 none 100 (by decide) (by decide)

end BloodMatch
